import Mathlib

/-!
Shallow embedding of the `Adc1` analog-to-digital converter driver declared in
`src/app/valve-ctrl/modm/src/modm/platform/adc/adc_1.hpp`.

The repository snapshot contains only the header: it declares the interface,
documents each operation, and fixes the enumerations (`Channel` 0–18,
`SampleTime`, `Prescaler` ∈ {2,4,6,8}, the interrupt and status flag sets),
but the implementation file `adc_1_impl.hpp` included at its end is not part
of the snapshot.  The operation bodies below are therefore modelled from the
specification, as explicit functions over a register state.  Machine
registers are `Nat` with explicit masking where field width matters.
-/

namespace Adc1

/-- Clear in `a` every bit that is set in `b` (bitwise AND-NOT on `Nat`,
encoded without a complement, which `Nat` does not have). -/
def clearMask (a b : Nat) : Nat := a ^^^ (a &&& b)

theorem testBit_clearMask (a b i : Nat) :
    (clearMask a b).testBit i = (a.testBit i && !(b.testBit i)) := by
  unfold clearMask
  simp only [Nat.testBit_xor, Nat.testBit_and]
  cases a.testBit i <;> cases b.testBit i <;> rfl

/-- Modelled from the spec: the device header defining the register-bit
constants is not in the snapshot.  Power-on bit `ADC_CR2_ADON`, bit 0 of
control register 2. -/
def ADC_CR2_ADON : Nat := 1

/-- Modelled from the spec: data alignment bit `ADC_CR2_ALIGN` (left- vs
right-aligned result), bit 11 of control register 2. -/
def ADC_CR2_ALIGN : Nat := 2048

/-- Modelled from the spec: software conversion start bit `ADC_CR2_SWSTART`,
bit 30 of control register 2. -/
def ADC_CR2_SWSTART : Nat := 1073741824

/-- Modelled from the spec: end-of-regular-conversion interrupt enable bit
`ADC_CR1_EOCIE` in control register 1. -/
def ADC_CR1_EOCIE : Nat := 32

/-- Modelled from the spec: analog-watchdog interrupt enable bit
`ADC_CR1_AWDIE` in control register 1. -/
def ADC_CR1_AWDIE : Nat := 64

/-- Modelled from the spec: end-of-conversion status bit `ADC_SR_EOC`,
bit 1 of the status register. -/
def ADC_SR_EOC : Nat := 2

/-- Register state of the ADC peripheral: control registers 1 and 2, the
status register, the two sample-time registers, the three regular-sequence
registers and the data register, mirroring the hardware register file the
operations of the header act on. -/
structure AdcState where
  cr1 : Nat
  cr2 : Nat
  sr : Nat
  smpr1 : Nat
  smpr2 : Nat
  sqr1 : Nat
  sqr2 : Nat
  sqr3 : Nat
  dr : Nat
  deriving DecidableEq, Repr

/-- Reset state: all registers zero. -/
def initState : AdcState := ⟨0, 0, 0, 0, 0, 0, 0, 0, 0⟩

/-- Write a `width`-bit field at bit offset `pos` of register `reg`. -/
def setField (reg pos width val : Nat) : Nat :=
  clearMask reg ((2 ^ width - 1) <<< pos) ||| ((val % 2 ^ width) <<< pos)

/-- Modelled from the spec (implementation file absent): `setSampleTime`
writes the 3-bit sample-time field of the given channel; channels 0–9 live
in `SMPR2`, channels 10 and up in `SMPR1`. -/
def setSampleTime (channel sampleTime : Nat) (s : AdcState) : AdcState :=
  if channel < 10 then
    { s with smpr2 := setField s.smpr2 (3 * channel) 3 sampleTime }
  else
    { s with smpr1 := setField s.smpr1 (3 * (channel - 10)) 3 sampleTime }

theorem setSampleTime_sqr3 (c t : Nat) (s : AdcState) :
    (setSampleTime c t s).sqr3 = s.sqr3 := by
  unfold setSampleTime
  split <;> rfl

/-- Modelled from the spec (implementation file absent): `setChannel`
returns `false` for a channel outside 0–18 without touching any register;
for a valid channel it sets the sequence length to one conversion, writes
the 5-bit channel field of `SQR3` and the sample time of the channel, and
returns `true`. -/
def setChannel (channel sampleTime : Nat) (s : AdcState) : Bool × AdcState :=
  if 18 < channel then (false, s)
  else
    (true, setSampleTime channel sampleTime
      { s with sqr1 := 0, sqr2 := 0, sqr3 := channel % 32 })

/-- Modelled from the spec (implementation file absent): `getChannel` reads
the 5-bit channel field of `SQR3`. -/
def getChannel (s : AdcState) : Nat := s.sqr3 % 32

/-- C1: for every channel value outside the valid range 0–18, `setChannel`
returns `false` and the entire prior register state — channel selection and
sample-time configuration included — is unchanged. -/
theorem C1_setChannel_out_of_range (c t : Nat) (s : AdcState) (h : 18 < c) :
    setChannel c t s = (false, s) := by
  unfold setChannel
  simp [h]

theorem C1_witness : setChannel 19 0 initState = (false, initState) :=
  C1_setChannel_out_of_range 19 0 initState (by decide)

/-- C2: for every valid channel `c ≤ 18` and any sample time, `setChannel`
followed by `getChannel` returns the same channel `c`. -/
theorem C2_setChannel_getChannel_roundtrip (c t : Nat) (s : AdcState)
    (h : c ≤ 18) :
    getChannel (setChannel c t s).2 = c := by
  unfold setChannel getChannel
  rw [if_neg (by omega)]
  simp only [setSampleTime_sqr3]
  omega

theorem C2_witness : getChannel (setChannel 18 7 initState).2 = 18 :=
  C2_setChannel_getChannel_roundtrip 18 7 initState (by decide)

/-- Modelled from the spec (implementation file absent): `enableInterrupt`
bitwise-ORs the interrupt mask into the interrupt-enable register (CR1). -/
def enableInterrupt (mask : Nat) (s : AdcState) : AdcState :=
  { s with cr1 := s.cr1 ||| mask }

/-- Modelled from the spec (implementation file absent): `disableInterrupt`
bitwise-AND-NOTs the interrupt mask out of the interrupt-enable register. -/
def disableInterrupt (mask : Nat) (s : AdcState) : AdcState :=
  { s with cr1 := clearMask s.cr1 mask }

/-- Every bit of `mask` is set in the interrupt-enable register. -/
def interruptEnabled (mask : Nat) (s : AdcState) : Bool :=
  s.cr1 &&& mask == mask

/-- Modelled from the spec (implementation file absent):
`acknowledgeInterruptFlags` clears exactly the status bits in `flags`,
preserving the other status bits (read-modify-write). -/
def acknowledgeInterruptFlags (flags : Nat) (s : AdcState) : AdcState :=
  { s with sr := clearMask s.sr flags }

/-- Modelled from the spec (implementation file absent):
`getInterruptFlags` reads the status register. -/
def getInterruptFlags (s : AdcState) : Nat := s.sr

/-- Modelled from the spec (implementation file absent): `enable` sets the
ADC power-on bit `ADC_CR2_ADON`. -/
def enable (s : AdcState) : AdcState :=
  { s with cr2 := s.cr2 ||| ADC_CR2_ADON }

/-- Modelled from the spec (implementation file absent): `disable` clears
the ADC power-on bit `ADC_CR2_ADON`. -/
def disable (s : AdcState) : AdcState :=
  { s with cr2 := clearMask s.cr2 ADC_CR2_ADON }

/-- Modelled from the spec and the doc comment of the header (implementation file
absent): `getAdcEnabled` returns true if the `ADC_CR2_ADON` bit is set,
false otherwise. -/
def getAdcEnabled (s : AdcState) : Bool :=
  s.cr2 &&& ADC_CR2_ADON != 0

/-- C4: for every flag mask, `acknowledgeInterruptFlags` clears exactly the
status bits contained in the mask — bit `i` of the status register afterward
is set iff it was set before and is not in the mask — and every other
register is untouched. -/
theorem C4_acknowledgeInterruptFlags_clears_exactly (mask : Nat)
    (s : AdcState) :
    (∀ i, ((acknowledgeInterruptFlags mask s).sr).testBit i
        = (s.sr.testBit i && !(mask.testBit i)))
    ∧ (acknowledgeInterruptFlags mask s).cr1 = s.cr1
    ∧ (acknowledgeInterruptFlags mask s).cr2 = s.cr2
    ∧ (acknowledgeInterruptFlags mask s).smpr1 = s.smpr1
    ∧ (acknowledgeInterruptFlags mask s).smpr2 = s.smpr2
    ∧ (acknowledgeInterruptFlags mask s).sqr1 = s.sqr1
    ∧ (acknowledgeInterruptFlags mask s).sqr2 = s.sqr2
    ∧ (acknowledgeInterruptFlags mask s).sqr3 = s.sqr3
    ∧ (acknowledgeInterruptFlags mask s).dr = s.dr := by
  refine ⟨fun i => ?_, rfl, rfl, rfl, rfl, rfl, rfl, rfl, rfl⟩
  exact testBit_clearMask s.sr mask i

/-- C5 counterexample: the claim quantifies over arbitrary masks `A` and
`B`; taking `A = B = ADC_CR1_EOCIE`, after `enableInterrupt A`,
`enableInterrupt B`, `disableInterrupt A` the mask `B` is not enabled,
refuting "leaving B enabled" for overlapping masks. -/
theorem C5_counterexample :
    interruptEnabled ADC_CR1_EOCIE
      (disableInterrupt ADC_CR1_EOCIE
        (enableInterrupt ADC_CR1_EOCIE
          (enableInterrupt ADC_CR1_EOCIE initState))) = false := by
  decide

/-- C5 (amended: the two masks must be disjoint, `A &&& B = 0`): after
`enableInterrupt A` then `enableInterrupt B`, both `A` and `B` are enabled;
a subsequent `disableInterrupt A` clears every bit of `A`, changes no bit
outside `A`, and leaves `B` enabled. -/
theorem C5_enable_disable_interrupt (s : AdcState) (A B : Nat)
    (hdisj : A &&& B = 0) :
    interruptEnabled A (enableInterrupt B (enableInterrupt A s)) = true
    ∧ interruptEnabled B (enableInterrupt B (enableInterrupt A s)) = true
    ∧ (∀ i, A.testBit i = true →
        ((disableInterrupt A (enableInterrupt B (enableInterrupt A s))).cr1).testBit i
          = false)
    ∧ (∀ i, A.testBit i = false →
        ((disableInterrupt A (enableInterrupt B (enableInterrupt A s))).cr1).testBit i
          = ((enableInterrupt B (enableInterrupt A s)).cr1).testBit i)
    ∧ interruptEnabled B
        (disableInterrupt A (enableInterrupt B (enableInterrupt A s))) = true := by
  have hbit : ∀ i, A.testBit i = false ∨ B.testBit i = false := by
    intro i
    have h := congrArg (fun n => Nat.testBit n i) hdisj
    simp only [Nat.testBit_and, Nat.zero_testBit] at h
    rcases Bool.and_eq_false_iff.mp h with h | h
    · exact Or.inl h
    · exact Or.inr h
  refine ⟨?_, ?_, ?_, ?_, ?_⟩
  · unfold interruptEnabled enableInterrupt
    simp only [beq_iff_eq]
    apply Nat.eq_of_testBit_eq
    intro i
    simp only [Nat.testBit_and, Nat.testBit_or]
    cases s.cr1.testBit i <;> cases A.testBit i <;> cases B.testBit i <;> rfl
  · unfold interruptEnabled enableInterrupt
    simp only [beq_iff_eq]
    apply Nat.eq_of_testBit_eq
    intro i
    simp only [Nat.testBit_and, Nat.testBit_or]
    cases s.cr1.testBit i <;> cases A.testBit i <;> cases B.testBit i <;> rfl
  · intro i hA
    unfold disableInterrupt enableInterrupt
    simp only [testBit_clearMask, Nat.testBit_or, hA]
    cases s.cr1.testBit i <;> cases B.testBit i <;> rfl
  · intro i hA
    unfold disableInterrupt enableInterrupt
    simp only [testBit_clearMask, Nat.testBit_or, hA]
    cases s.cr1.testBit i <;> cases B.testBit i <;> rfl
  · unfold interruptEnabled disableInterrupt enableInterrupt
    simp only [beq_iff_eq]
    apply Nat.eq_of_testBit_eq
    intro i
    simp only [Nat.testBit_and, testBit_clearMask, Nat.testBit_or]
    rcases hbit i with h | h <;> rw [h] <;>
      cases s.cr1.testBit i <;> cases A.testBit i <;> cases B.testBit i <;>
      simp_all

theorem C5_witness :
    interruptEnabled ADC_CR1_AWDIE
      (disableInterrupt ADC_CR1_EOCIE
        (enableInterrupt ADC_CR1_AWDIE
          (enableInterrupt ADC_CR1_EOCIE initState))) = true :=
  (C5_enable_disable_interrupt initState ADC_CR1_EOCIE ADC_CR1_AWDIE
    (by decide)).2.2.2.2

/-- C9: `enable` and `disable` are idempotent and touch only the power-on
bit: calling either twice equals calling it once, every bit of CR2 other
than bit 0 is unchanged, bit 0 becomes 1 under `enable` and 0 under
`disable`, and no other register changes. -/
theorem C9_enable_disable_idempotent (s : AdcState) :
    enable (enable s) = enable s
    ∧ disable (disable s) = disable s
    ∧ (∀ i, i ≠ 0 → ((enable s).cr2).testBit i = s.cr2.testBit i)
    ∧ ((enable s).cr2).testBit 0 = true
    ∧ (∀ i, i ≠ 0 → ((disable s).cr2).testBit i = s.cr2.testBit i)
    ∧ ((disable s).cr2).testBit 0 = false
    ∧ (enable s).cr1 = s.cr1 ∧ (enable s).sr = s.sr ∧ (enable s).dr = s.dr
    ∧ (disable s).cr1 = s.cr1 ∧ (disable s).sr = s.sr
    ∧ (disable s).dr = s.dr := by
  have hone : ∀ i, i ≠ 0 → Nat.testBit ADC_CR2_ADON i = false := by
    intro i hi
    apply Nat.testBit_lt_two_pow
    have : 1 ≤ i := Nat.one_le_iff_ne_zero.mpr hi
    calc ADC_CR2_ADON < 2 ^ 1 := by decide
    _ ≤ 2 ^ i := Nat.pow_le_pow_right (by decide) this
  refine ⟨?_, ?_, ?_, ?_, ?_, ?_, rfl, rfl, rfl, rfl, rfl, rfl⟩
  · unfold enable
    congr 1
    apply Nat.eq_of_testBit_eq
    intro i
    simp only [Nat.testBit_or]
    cases s.cr2.testBit i <;> cases Nat.testBit ADC_CR2_ADON i <;> rfl
  · unfold disable
    congr 1
    apply Nat.eq_of_testBit_eq
    intro i
    simp only [testBit_clearMask]
    cases s.cr2.testBit i <;> cases Nat.testBit ADC_CR2_ADON i <;> rfl
  · intro i hi
    unfold enable
    simp only [Nat.testBit_or, hone i hi, Bool.or_false]
  · unfold enable
    simp only [Nat.testBit_or]
    rw [show Nat.testBit ADC_CR2_ADON 0 = true from rfl]
    exact Bool.or_true _
  · intro i hi
    unfold disable
    simp only [testBit_clearMask, hone i hi]
    cases s.cr2.testBit i <;> rfl
  · unfold disable
    simp only [testBit_clearMask]
    cases s.cr2.testBit 0 <;> rfl

theorem C9_witness :
    ((enable initState).cr2).testBit 5 = initState.cr2.testBit 5 :=
  (C9_enable_disable_idempotent initState).2.2.1 5 (by decide)

/-- C10: `getAdcEnabled` returns true exactly when the power-on bit
`ADC_CR2_ADON` (bit 0 of CR2) is set; in particular it returns true after
`enable` and false after `disable`. -/
theorem C10_getAdcEnabled (s : AdcState) :
    getAdcEnabled s = s.cr2.testBit 0
    ∧ getAdcEnabled (enable s) = true
    ∧ getAdcEnabled (disable s) = false := by
  have key : ∀ n : Nat, (n &&& ADC_CR2_ADON != 0) = n.testBit 0 := by
    intro n
    rw [show ADC_CR2_ADON = 1 from rfl, Nat.and_one_is_mod, Nat.testBit_zero]
    rcases Nat.mod_two_eq_zero_or_one n with h | h <;> rw [h] <;> rfl
  refine ⟨key s.cr2, ?_, ?_⟩
  · unfold getAdcEnabled enable
    rw [key]
    simp only [Nat.testBit_or]
    rw [show Nat.testBit ADC_CR2_ADON 0 = true from rfl]
    exact Bool.or_true _
  · unfold getAdcEnabled disable
    rw [key]
    rw [testBit_clearMask]
    rw [show Nat.testBit ADC_CR2_ADON 0 = true from rfl]
    exact Bool.and_false _

/-- Polarity value `ExternalTriggerPolarity::NoTriggerDetection` (0x0). -/
def NoTriggerDetection : Nat := 0

/-- Modelled from the spec (implementation file absent):
`enableRegularConversionExternalTrigger` writes the two CR2 fields in one
combined update — the 2-bit trigger polarity `EXTEN` at bits 28–29 and the
4-bit event source `EXTSEL` at bits 24–27. -/
def enableRegularConversionExternalTrigger (polarity eventSource : Nat)
    (s : AdcState) : AdcState :=
  { s with cr2 :=
      clearMask s.cr2 ((3 <<< 28) ||| (15 <<< 24))
        ||| ((polarity % 2 ^ 2) <<< 28) ||| ((eventSource % 2 ^ 4) <<< 24) }

/-- External triggering is active when the `EXTEN` field (bits 28–29 of
CR2) is non-zero. -/
def externalTriggerEnabled (s : AdcState) : Bool :=
  s.cr2.testBit 28 || s.cr2.testBit 29

/-- C8: for every event source and every prior state, calling
`enableRegularConversionExternalTrigger` with polarity
`NoTriggerDetection` leaves external triggering disabled. -/
theorem C8_no_trigger_detection_disables (eventSource : Nat) (s : AdcState) :
    externalTriggerEnabled
      (enableRegularConversionExternalTrigger NoTriggerDetection eventSource s)
      = false := by
  unfold externalTriggerEnabled enableRegularConversionExternalTrigger
  unfold NoTriggerDetection
  simp [testBit_clearMask, Nat.testBit_mod_two_pow]
  exact ⟨⟨fun _ => by decide, Nat.testBit_lt_two_pow (Nat.mod_lt _ (by decide))⟩,
    fun _ => by decide,
    Nat.testBit_lt_two_pow
      (Nat.lt_of_lt_of_le (Nat.mod_lt _ (by decide)) (by decide))⟩

/-- List of the four prescaler divisors of the `Prescaler` enumeration
(`Div2`, `Div4`, `Div6`, `Div8`). -/
def prescalerDivisors : List Nat := [2, 4, 6, 8]

/-- Modelled from the spec: the achieved frequency is within
`tolerancePct` percent of the requested target frequency. -/
def withinTolerance (actual target tolerancePct : Nat) : Bool :=
  decide ((if target ≤ actual then actual - target else target - actual) * 100
    ≤ target * tolerancePct)

/-- A divisor is admissible when the divided clock does not exceed the
device limit and is within tolerance of the target frequency. -/
def prescalerOk (input target limit tolerancePct divisor : Nat) : Bool :=
  decide (input / divisor ≤ limit)
    && withinTolerance (input / divisor) target tolerancePct

/-- Modelled from the spec (implementation file absent): the prescaler
computation inside `initialize` tries the four divisors smallest-first and
selects the first admissible one; `none` models the configuration being
rejected by the compile-time check when no divisor is admissible. -/
def findPrescaler (input target limit tolerancePct : Nat) : Option Nat :=
  if prescalerOk input target limit tolerancePct 2 then some 2
  else if prescalerOk input target limit tolerancePct 4 then some 4
  else if prescalerOk input target limit tolerancePct 6 then some 6
  else if prescalerOk input target limit tolerancePct 8 then some 8
  else none

/-- C3: the prescaler selected by `initialize` is the smallest of the four
divisors whose resulting ADC clock is below the device limit and within
tolerance of the target; when no divisor is admissible the configuration
is rejected (modelled by `none`, the static rejection). -/
theorem C3_prescaler_selection (input target limit tolerancePct : Nat) :
    (∀ d, findPrescaler input target limit tolerancePct = some d →
      d ∈ prescalerDivisors
        ∧ prescalerOk input target limit tolerancePct d = true
        ∧ ∀ e ∈ prescalerDivisors, e < d →
            prescalerOk input target limit tolerancePct e = false)
    ∧ (findPrescaler input target limit tolerancePct = none →
        ∀ d ∈ prescalerDivisors,
          prescalerOk input target limit tolerancePct d = false) := by
  cases h2 : prescalerOk input target limit tolerancePct 2 <;>
    cases h4 : prescalerOk input target limit tolerancePct 4 <;>
    cases h6 : prescalerOk input target limit tolerancePct 6 <;>
    cases h8 : prescalerOk input target limit tolerancePct 8 <;>
    simp_all [findPrescaler, prescalerDivisors]

theorem C3_witness :
    prescalerOk 100000000 100000000 36000000 1 2 = false :=
  (C3_prescaler_selection 100000000 100000000 36000000 1).2 (by decide) 2
    (by decide)

/-- Modelled from the spec (implementation file absent):
`setLeftAdjustResult` sets the alignment bit `ADC_CR2_ALIGN`, a persistent
mode. -/
def setLeftAdjustResult (s : AdcState) : AdcState :=
  { s with cr2 := s.cr2 ||| ADC_CR2_ALIGN }

/-- Modelled from the spec (implementation file absent):
`setRightAdjustResult` clears the alignment bit `ADC_CR2_ALIGN`. -/
def setRightAdjustResult (s : AdcState) : AdcState :=
  { s with cr2 := clearMask s.cr2 ADC_CR2_ALIGN }

/-- The result-alignment mode currently configured (bit 11 of CR2). -/
def leftAligned (s : AdcState) : Bool := s.cr2.testBit 11

/-- Modelled from the spec (implementation file absent):
`isConversionFinished` is a non-blocking poll of the end-of-conversion
status bit `ADC_SR_EOC` (bit 1 of the status register). -/
def isConversionFinished (s : AdcState) : Bool := s.sr.testBit 1

/-- Modelled from the spec (implementation file absent): `startConversion`
triggers the software start bit `ADC_CR2_SWSTART`. -/
def startConversion (s : AdcState) : AdcState :=
  { s with cr2 := s.cr2 ||| ADC_CR2_SWSTART }

/-- Modelled from the spec (implementation file absent): `getValue` reads
the 16-bit result data register. -/
def getValue (s : AdcState) : Nat := s.dr % 65536

/-- Placement of a raw 12-bit conversion sample in the 16-bit data
register, per the description in the header of the left- or right-aligned result
register: right-aligned the sample occupies the low 12 bits, left-aligned
it is shifted up by four bits. -/
def alignResult (left : Bool) (sample : Nat) : Nat :=
  if left then (sample % 4096) * 16 else sample % 4096

/-- Hardware completion of a conversion: the raw sample is stored in the
data register according to the configured alignment and the
end-of-conversion status bit is set.  This is an action of the environment,
not an operation of the driver. -/
def completeConversion (sample : Nat) (s : AdcState) : AdcState :=
  { s with dr := alignResult (leftAligned s) sample, sr := s.sr ||| ADC_SR_EOC }

/-- Busy-poll of `isConversionFinished`: spin until the status bit is set,
with `env` the action of the hardware between two polls and `fuel` bounding the
unbounded spin loop; `none` models the loop never terminating. -/
def busyPoll (env : AdcState → AdcState) : Nat → AdcState → Option AdcState
  | 0, s => if isConversionFinished s then some s else none
  | n + 1, s =>
      if isConversionFinished s then some s else busyPoll env n (env s)

/-- Iterated application of the environment between polls. -/
def iterateEnv (env : AdcState → AdcState) : Nat → AdcState → AdcState
  | 0, s => s
  | n + 1, s => iterateEnv env n (env s)

/-- Spin loop of `readChannel`: poll the status bit and, once it is set,
return the data register together with the final state. -/
def readChannelLoop (env : AdcState → AdcState) :
    Nat → AdcState → Option (Nat × AdcState)
  | 0, s => if isConversionFinished s then some (getValue s, s) else none
  | n + 1, s =>
      if isConversionFinished s then some (getValue s, s)
      else readChannelLoop env n (env s)

/-- Modelled from the spec (implementation file absent): `readChannel`
selects the channel (with the default sample time), starts a conversion,
busy-waits on the end-of-conversion status bit and returns the value of
the data register. -/
def readChannel (env : AdcState → AdcState) (fuel channel : Nat)
    (s : AdcState) : Option (Nat × AdcState) :=
  readChannelLoop env fuel (startConversion (setChannel channel 0 s).2)

/-- Composition prescribed by the spec sentence for C7: `setChannel`, then
`startConversion`, then busy-polling `isConversionFinished` until it is
true, then `getValue`. -/
def readChannelComposite (env : AdcState → AdcState) (fuel channel : Nat)
    (s : AdcState) : Option (Nat × AdcState) :=
  Option.map (fun sf => (getValue sf, sf))
    (busyPoll env fuel (startConversion (setChannel channel 0 s).2))

theorem readChannelLoop_eq_busyPoll (env : AdcState → AdcState) :
    ∀ (n : Nat) (s : AdcState),
      readChannelLoop env n s
        = Option.map (fun sf => (getValue sf, sf)) (busyPoll env n s) := by
  intro n
  induction n with
  | zero =>
      intro s
      unfold readChannelLoop busyPoll
      split <;> rfl
  | succ n ih =>
      intro s
      unfold readChannelLoop busyPoll
      split
      · rfl
      · exact ih (env s)

theorem busyPoll_first_completion (env : AdcState → AdcState) :
    ∀ (n : Nat) (s sf : AdcState), busyPoll env n s = some sf →
      ∃ k, k ≤ n ∧ sf = iterateEnv env k s
        ∧ isConversionFinished sf = true
        ∧ ∀ j < k, isConversionFinished (iterateEnv env j s) = false := by
  intro n
  induction n with
  | zero =>
      intro s sf h
      unfold busyPoll at h
      split at h
      · cases h
        exact ⟨0, Nat.le_refl 0, rfl, by assumption, fun j hj => absurd hj (by omega)⟩
      · cases h
  | succ n ih =>
      intro s sf h
      unfold busyPoll at h
      split at h
      · cases h
        exact ⟨0, Nat.zero_le _, rfl, by assumption, fun j hj => absurd hj (by omega)⟩
      · obtain ⟨k, hk, hsf, hfin, hbefore⟩ := ih (env s) sf h
        refine ⟨k + 1, by omega, hsf, hfin, ?_⟩
        intro j hj
        cases j with
        | zero => exact Bool.eq_false_iff.mpr (by assumption)
        | succ j => exact hbefore j (by omega)

/-- C7: `readChannel` is exactly the composition `setChannel`,
`startConversion`, busy-poll of `isConversionFinished`, `getValue`; and
the busy-poll blocks until the status bit indicates completion — when it
returns a state, that state is the first one along the run in which
`isConversionFinished` holds. -/
theorem C7_readChannel_composite (env : AdcState → AdcState) (fuel c : Nat)
    (s : AdcState) (hvalid : c ≤ 18) :
    readChannel env fuel c s = readChannelComposite env fuel c s
    ∧ (∀ n (s0 sf : AdcState), busyPoll env n s0 = some sf →
        ∃ k, k ≤ n ∧ sf = iterateEnv env k s0
          ∧ isConversionFinished sf = true
          ∧ ∀ j < k, isConversionFinished (iterateEnv env j s0) = false) :=
  ⟨readChannelLoop_eq_busyPoll env fuel _,
    fun n s0 sf hp => busyPoll_first_completion env n s0 sf hp⟩

theorem C7_witness :
    readChannel (completeConversion 7) 2 0 initState
      = readChannelComposite (completeConversion 7) 2 0 initState :=
  (C7_readChannel_composite (completeConversion 7) 2 0 initState
    (by decide)).1

/-- C6 counterexample: in left-adjusted mode the 12-bit sample 4095 is
returned shifted up by four bits, so `readChannel` yields 65520 > 4095,
refuting the claimed range for every alignment mode. -/
theorem C6_counterexample :
    (readChannel (completeConversion 4095) 2 0
        (setLeftAdjustResult initState)).map Prod.fst = some 65520
    ∧ ¬ (65520 : Nat) ≤ 4095 := by
  constructor
  · decide
  · decide

theorem setSampleTime_cr2 (c t : Nat) (s : AdcState) :
    (setSampleTime c t s).cr2 = s.cr2 := by
  unfold setSampleTime
  split <;> rfl

theorem setSampleTime_sr (c t : Nat) (s : AdcState) :
    (setSampleTime c t s).sr = s.sr := by
  unfold setSampleTime
  split <;> rfl

theorem setChannel_cr2 (c t : Nat) (s : AdcState) :
    ((setChannel c t s).2).cr2 = s.cr2 := by
  unfold setChannel
  split
  · rfl
  · rw [setSampleTime_cr2]

theorem setChannel_sr (c t : Nat) (s : AdcState) :
    ((setChannel c t s).2).sr = s.sr := by
  unfold setChannel
  split
  · rfl
  · rw [setSampleTime_sr]

theorem startConversion_sr (s : AdcState) :
    (startConversion s).sr = s.sr := rfl

theorem leftAligned_startConversion (s : AdcState) :
    leftAligned (startConversion s) = leftAligned s := by
  unfold leftAligned startConversion
  simp only [Nat.testBit_or]
  rw [show Nat.testBit ADC_CR2_SWSTART 11 = false from by decide]
  exact Bool.or_false _

theorem busyPoll_completeConversion_dr (sample : Nat) :
    ∀ (n : Nat) (s sf : AdcState), leftAligned s = false →
      (isConversionFinished s = true → s.dr ≤ 4095) →
      busyPoll (completeConversion sample) n s = some sf →
      sf.dr ≤ 4095 := by
  intro n
  induction n with
  | zero =>
      intro s sf halign hdr h
      unfold busyPoll at h
      split at h
      · cases h
        exact hdr (by assumption)
      · cases h
  | succ n ih =>
      intro s sf halign hdr h
      unfold busyPoll at h
      split at h
      · cases h
        exact hdr (by assumption)
      · refine ih (completeConversion sample s) sf ?_ ?_ h
        · exact halign
        · intro _
          show alignResult (leftAligned s) sample ≤ 4095
          rw [halign]
          unfold alignResult
          simp only [if_neg Bool.false_ne_true]
          omega

/-- C6 (amended: in right-aligned mode; in left-adjusted mode the 12
significant bits are returned shifted up by four, reaching 65520): when
the result is right-aligned and no stale completion flag is pending,
`readChannel` returns a value in [0, 4095] once the status bit indicates
completion. -/
theorem C6_readChannel_range (sample fuel c v : Nat) (s sf : AdcState)
    (halign : leftAligned s = false)
    (hfresh : isConversionFinished s = false)
    (h : readChannel (completeConversion sample) fuel c s = some (v, sf)) :
    v ≤ 4095 := by
  unfold readChannel at h
  rw [readChannelLoop_eq_busyPoll] at h
  set s0 := startConversion (setChannel c 0 s).2 with hs0
  cases hb : busyPoll (completeConversion sample) fuel s0 with
  | none => rw [hb] at h; cases h
  | some s3 =>
      rw [hb] at h
      have hdr : s3.dr ≤ 4095 := by
        refine busyPoll_completeConversion_dr sample fuel s0 s3 ?_ ?_ hb
        · rw [hs0, leftAligned_startConversion]
          unfold leftAligned
          rw [setChannel_cr2]
          exact halign
        · intro hfin
          exfalso
          unfold isConversionFinished at hfin hfresh
          rw [hs0, startConversion_sr, setChannel_sr] at hfin
          rw [hfin] at hfresh
          cases hfresh
      rw [show Option.map (fun x => (getValue x, x)) (some s3)
            = some (getValue s3, s3) from rfl] at h
      injection h with h1
      have hv : getValue s3 = v := congrArg Prod.fst h1
      rw [← hv]
      unfold getValue
      omega

theorem C6_witness :
    (readChannel (completeConversion 1234) 2 0 initState).map Prod.fst
        = some 1234
    ∧ (1234 : Nat) ≤ 4095 :=
  ⟨by decide,
    C6_readChannel_range 1234 2 0 1234 initState
      ⟨0, 1073741824, 2, 0, 0, 0, 0, 0, 1234⟩ (by decide) (by decide)
      (by decide)⟩

end Adc1
